import Mathlib

/-!
Verification development for the `rsg` download orchestrator.

The repository ships the orchestrator's test suites
(`src/core/downloadArchives_test.go`, `src/vault/mappingDowloader_test.go`),
the output helper (`src/outputs/outputs.go`) and a vault-selection helper,
but not the orchestrator implementation itself.  The definitions below are
therefore a shallow embedding of the orchestrator modelled from the
specification, with the repository's tests pinning the behaviour wherever
they are more precise than the prose; `outputs.go` is embedded directly
from its source.
-/

/- ------------------------------------------------------------------ -/
/- Retrieval planning: splitting an archive byte range into parts.    -/
/- ------------------------------------------------------------------ -/

/-- Modelled from the spec: the `RetrievalPlanner` of the missing
`downloadArchives.go`.  Spec 4.2 step 2: "split `[0, declaredSize)` into
contiguous parts of size ≤ `archivesRetrievalMaxSize`".  The size granted
to each successive part additionally depends on the rate budget available
at initiation time (observable in the multipart tests, where a 4 MiB
archive is split 2 MiB / 1 MiB / 1 MiB); we model that with an arbitrary
schedule `sizeAt : Nat → Nat` giving the size offered to the i-th part,
clamped to at least 1 byte and at most the ceiling `C`, and to the bytes
remaining.  `fuel` bounds the recursion; `fuel = rem` always suffices when
`0 < C`. -/
def splitSizedGo : Nat → (Nat → Nat) → Nat → Nat → Nat → Nat → List (Nat × Nat)
  | 0, _, _, _, _, _ => []
  | fuel+1, sizeAt, i, start, rem, C =>
    if rem = 0 then []
    else
      let t := min (min (max (sizeAt i) 1) C) rem
      (start, start + t - 1) :: splitSizedGo fuel sizeAt (i+1) (start+t) (rem - t) C

/-- Modelled from the spec: plan the inclusive-inclusive part ranges for the
byte interval `[L, N)` of an archive (spec 4.4: "the planner must plan only
`[L, declaredSize)`"), under part-size schedule `sizeAt` and ceiling `C`. -/
def splitSized (sizeAt : Nat → Nat) (L N C : Nat) : List (Nat × Nat) :=
  splitSizedGo (N - L) sizeAt 0 L (N - L) C

/-- The uniform split in which every part is granted the full ceiling `C`
(the schedule never binds). -/
def splitFrom (L N C : Nat) : List (Nat × Nat) :=
  splitSized (fun _ => C) L N C

/-- The rule stated by the spec's round-trip property: "an archive of
declared size `N` split into parts of ceiling `C` yields exactly `⌈N/C⌉`
parts with inclusive ranges `[0,C-1], [C,2C-1], …, [(k-1)C, N-1]`".
This definition follows the spec's words, to be compared with the planner
model. -/
def ceilRuleRanges (N C : Nat) : List (Nat × Nat) :=
  (List.range ((N + C - 1) / C)).map (fun i => (C * i, min (C * i + C) N - 1))

/-- The `InitiateJob` ranges demanded by the repository test
`TestDownloadArchives_retrieve_and_download_file_with_multipart`
(src/core/downloadArchives_test.go lines 151-165): ranges
"0-2097151", "2097152-3145727", "3145728-4194303". -/
def multipartTestRanges : List (Nat × Nat) :=
  [(0, 2097151), (2097152, 3145727), (3145728, 4194303)]

/-- The part-size schedule observable in that test: the first part is
granted the full 2 MiB ceiling, later parts only 1 MiB (the rate budget
with `speedInBytesBySec = 3496` binds). -/
def multipartTestSchedule : Nat → Nat :=
  fun i => if i = 0 then 2097152 else 1048576

/-- Byte slice of `content` described by an inclusive-inclusive range. -/
def sliceOf (content : List Char) (p : Nat × Nat) : List Char :=
  (content.drop p.1).take (p.2 + 1 - p.1)

/- Lemmas about the planner's splitting. -/

theorem splitSizedGo_rem_zero (fuel : Nat) (sizeAt : Nat → Nat) (i start C : Nat) :
    splitSizedGo fuel sizeAt i start 0 C = [] := by
  cases fuel <;> simp [splitSizedGo]

theorem splitSizedGo_head_start (fuel : Nat) (sizeAt : Nat → Nat)
    (i start rem C : Nat) :
    ∀ q ∈ (splitSizedGo fuel sizeAt i start rem C).head?, q.1 = start := by
  match fuel with
  | 0 => intro q hq; simp [splitSizedGo] at hq
  | fuel+1 =>
    intro q hq
    by_cases hrem : rem = 0
    · simp [splitSizedGo, hrem] at hq
    · simp [splitSizedGo, hrem] at hq
      rw [← hq]

theorem splitSizedGo_chain (fuel : Nat) (hC : 0 < C) :
    ∀ (sizeAt : Nat → Nat) (i start rem : Nat), rem ≤ fuel →
    List.Chain' (fun p q : Nat × Nat => p.2 + 1 = q.1)
      (splitSizedGo fuel sizeAt i start rem C) := by
  induction fuel with
  | zero => intro sizeAt i start rem h; interval_cases rem; simp [splitSizedGo]
  | succ fuel ih =>
    intro sizeAt i start rem h
    by_cases hrem : rem = 0
    · simp [splitSizedGo, hrem]
    · have hrem1 : 1 ≤ rem := Nat.one_le_iff_ne_zero.mpr hrem
      simp only [splitSizedGo, if_neg hrem]
      rw [List.chain'_cons']
      constructor
      · intro q hq
        have hstart := splitSizedGo_head_start fuel sizeAt (i+1)
          (start + min (min (max (sizeAt i) 1) C) rem) (rem - min (min (max (sizeAt i) 1) C) rem) C q hq
        omega
      · exact ih sizeAt (i+1) _ _ (by omega)

theorem splitSizedGo_bounds (fuel : Nat) (hC : 0 < C) :
    ∀ (sizeAt : Nat → Nat) (i start rem : Nat), rem ≤ fuel →
    ∀ p ∈ splitSizedGo fuel sizeAt i start rem C,
      start ≤ p.1 ∧ p.1 ≤ p.2 ∧ p.2 < start + rem ∧ p.2 + 1 - p.1 ≤ C := by
  induction fuel with
  | zero => intro sizeAt i start rem h; interval_cases rem; simp [splitSizedGo]
  | succ fuel ih =>
    intro sizeAt i start rem h p hp
    by_cases hrem : rem = 0
    · simp [splitSizedGo, hrem] at hp
    · have hrem1 : 1 ≤ rem := Nat.one_le_iff_ne_zero.mpr hrem
      simp only [splitSizedGo, if_neg hrem, List.mem_cons] at hp
      rcases hp with hp | hp
      · subst hp; simp only; omega
      · have := ih sizeAt (i+1) _ _ (by omega) p hp
        omega

theorem splitSizedGo_cover (fuel : Nat) (hC : 0 < C) :
    ∀ (sizeAt : Nat → Nat) (i start rem : Nat), rem ≤ fuel →
    ∀ b, start ≤ b → b < start + rem →
      ∃ p ∈ splitSizedGo fuel sizeAt i start rem C, p.1 ≤ b ∧ b ≤ p.2 := by
  induction fuel with
  | zero => intro sizeAt i start rem h b hb1 hb2; omega
  | succ fuel ih =>
    intro sizeAt i start rem h b hb1 hb2
    have hrem : rem ≠ 0 := by omega
    have hrem1 : 1 ≤ rem := Nat.one_le_iff_ne_zero.mpr hrem
    simp only [splitSizedGo, if_neg hrem]
    by_cases hble : b ≤ start + min (min (max (sizeAt i) 1) C) rem - 1
    · exact ⟨(start, start + min (min (max (sizeAt i) 1) C) rem - 1),
        List.mem_cons_self _ _, hb1, hble⟩
    · obtain ⟨p, hp, h1, h2⟩ := ih sizeAt (i+1)
        (start + min (min (max (sizeAt i) 1) C) rem)
        (rem - min (min (max (sizeAt i) 1) C) rem) (by omega) b (by omega) (by omega)
      exact ⟨p, List.mem_cons_of_mem _ hp, h1, h2⟩

theorem splitSizedGo_length (fuel : Nat) (hC : 0 < C) :
    ∀ (sizeAt : Nat → Nat) (i start rem : Nat), rem ≤ fuel →
    (rem + C - 1) / C ≤ (splitSizedGo fuel sizeAt i start rem C).length := by
  induction fuel with
  | zero =>
    intro sizeAt i start rem h
    interval_cases rem
    simp only [splitSizedGo, List.length_nil, Nat.zero_add]
    exact Nat.le_of_eq (Nat.div_eq_of_lt (by omega))
  | succ fuel ih =>
    intro sizeAt i start rem h
    by_cases hrem : rem = 0
    · subst hrem
      simp only [splitSizedGo, if_pos rfl, List.length_nil, Nat.zero_add]
      exact Nat.le_of_eq (Nat.div_eq_of_lt (by omega))
    · have hrem1 : 1 ≤ rem := Nat.one_le_iff_ne_zero.mpr hrem
      simp only [splitSizedGo, if_neg hrem, List.length_cons]
      have hrec := ih sizeAt (i+1) (start + min (min (max (sizeAt i) 1) C) rem)
        (rem - min (min (max (sizeAt i) 1) C) rem) (by omega)
      have harith : (rem + C - 1) / C ≤
          (rem - min (min (max (sizeAt i) 1) C) rem + C - 1) / C + 1 := by
        have h1 : rem + C - 1 ≤ (rem - min (min (max (sizeAt i) 1) C) rem + C - 1) + C := by
          omega
        calc (rem + C - 1) / C
            ≤ ((rem - min (min (max (sizeAt i) 1) C) rem + C - 1) + C) / C :=
              Nat.div_le_div_right h1
          _ = (rem - min (min (max (sizeAt i) 1) C) rem + C - 1) / C + 1 :=
              Nat.add_div_right _ hC
      omega

theorem splitSizedGo_flatten_slices (fuel : Nat) (hC : 0 < C) :
    ∀ (sizeAt : Nat → Nat) (i start rem : Nat) (content : List Char), rem ≤ fuel →
    ((splitSizedGo fuel sizeAt i start rem C).map (sliceOf content)).flatten
      = (content.drop start).take rem := by
  induction fuel with
  | zero => intro sizeAt i start rem content h; interval_cases rem; simp [splitSizedGo]
  | succ fuel ih =>
    intro sizeAt i start rem content h
    by_cases hrem : rem = 0
    · simp [splitSizedGo, hrem]
    · have hrem1 : 1 ≤ rem := Nat.one_le_iff_ne_zero.mpr hrem
      have ht1 : 1 ≤ min (min (max (sizeAt i) 1) C) rem := by omega
      have htr : min (min (max (sizeAt i) 1) C) rem ≤ rem := by omega
      simp only [splitSizedGo, if_neg hrem, List.map_cons, List.flatten_cons]
      rw [ih sizeAt (i+1) _ _ content (by omega)]
      show (content.drop start).take (start + min (min (max (sizeAt i) 1) C) rem - 1 + 1 - start)
          ++ (content.drop (start + min (min (max (sizeAt i) 1) C) rem)).take
              (rem - min (min (max (sizeAt i) 1) C) rem)
        = (content.drop start).take rem
      have hw : start + min (min (max (sizeAt i) 1) C) rem - 1 + 1 - start
          = min (min (max (sizeAt i) 1) C) rem := by omega
      rw [hw, ← List.drop_drop, ← List.take_add]
      have : min (min (max (sizeAt i) 1) C) rem + (rem - min (min (max (sizeAt i) 1) C) rem)
          = rem := by omega
      rw [this]

theorem splitSizedGo_uniform (C : Nat) (hC : 0 < C) (fuel : Nat) :
    ∀ i start rem, rem ≤ fuel →
    splitSizedGo fuel (fun _ => C) i start rem C
      = (List.range ((rem + C - 1) / C)).map
          (fun k => (start + C * k, start + min (C * k + C) rem - 1)) := by
  induction fuel with
  | zero =>
    intro i start rem h
    interval_cases rem
    rw [Nat.div_eq_of_lt (by omega)]
    simp [splitSizedGo]
  | succ fuel ih =>
    intro i start rem h
    by_cases hrem : rem = 0
    · subst hrem
      rw [Nat.div_eq_of_lt (by omega)]
      simp [splitSizedGo]
    · have hrem1 : 1 ≤ rem := Nat.one_le_iff_ne_zero.mpr hrem
      have hmaxC : max C 1 = C := by omega
      simp only [splitSizedGo, if_neg hrem, hmaxC, Nat.min_self]
      by_cases hCrem : rem ≤ C
      · have ht : min C rem = rem := by omega
        rw [ht]
        have hceil : (rem + C - 1) / C = 1 :=
          Nat.div_eq_of_lt_le (by omega) (by omega)
        rw [hceil, Nat.sub_self, splitSizedGo_rem_zero]
        rw [show (1:Nat) = 0 + 1 from rfl, List.range_succ_eq_map]
        simp only [List.range_zero, List.map_nil, List.map_cons, Nat.mul_zero,
          Nat.add_zero, Nat.zero_add, Prod.mk.injEq, List.cons.injEq, and_true]
        exact ⟨trivial, by omega⟩
      · have ht : min C rem = C := by omega
        rw [ht]
        have hceil : (rem + C - 1) / C = (rem - C + C - 1) / C + 1 := by
          have he : rem + C - 1 = (rem - C + C - 1) + C := by omega
          rw [he, Nat.add_div_right _ hC]
        rw [hceil, ih (i+1) (start + C) (rem - C) (by omega),
          List.range_succ_eq_map, List.map_cons, List.map_map]
        have hhead : (start + C * 0, start + min (C * 0 + C) rem - 1)
            = (start, start + C - 1) := by
          simp only [Prod.mk.injEq, Nat.mul_zero, Nat.zero_add]
          omega
        rw [hhead]
        have hfun : (fun k => (start + C + C * k, start + C + min (C * k + C) (rem - C) - 1))
            = ((fun k => (start + C * k, start + min (C * k + C) rem - 1)) ∘ Nat.succ) := by
          funext k
          simp only [Function.comp_apply, Nat.succ_eq_add_one, Prod.mk.injEq]
          have h1 : C * (k + 1) = C * k + C := by ring
          rw [h1]
          generalize C * k = a
          omega
        rw [hfun]

/- ------------------------------------------------------------------ -/
/- Glob filtering (spec 4.6).                                         -/
/- ------------------------------------------------------------------ -/

/-- Modelled from the spec: the glob matcher used by the missing
filtering code of `downloadArchives.go`.  A pattern is matched against the
full `basePath`; a star matches any run of characters, including path
separators (spec 4.6 parenthetical, confirmed by the filtered-files test);
a question mark matches exactly one character; any other character matches
itself.  The fuel argument bounds the backtracking recursion; each call
shrinks `pattern.length + path.length`, so an initial fuel of
`pattern.length + path.length + 1` is always enough. -/
def globMatchFuel : Nat → List Char → List Char → Bool
  | 0, _, _ => false
  | fuel+1, p, s =>
    match p, s with
    | [], s2 => s2.isEmpty
    | c :: ps, s2 =>
      if c = '*' then
        globMatchFuel fuel ps s2 ||
          (match s2 with
           | [] => false
           | _ :: ss => globMatchFuel fuel (c :: ps) ss)
      else
        match s2 with
        | [] => false
        | c2 :: ss => (if c = '?' then true else c = c2) && globMatchFuel fuel ps ss

/-- Match a glob pattern against a full base path. -/
def globMatch (pattern path : String) : Bool :=
  globMatchFuel (pattern.length + path.length + 1) pattern.data path.data

/-- A record's base path passes when it matches at least one filter. -/
def matchesAny (filters : List String) (path : String) : Bool :=
  filters.any (fun f => globMatch f path)

/- ------------------------------------------------------------------ -/
/- Data model (spec 3) and the download run (spec 4.2-4.5).           -/
/- ------------------------------------------------------------------ -/

/-- `FileRecord` as in spec 3: one row of the mapping store. -/
structure FileRecord where
  shareName : String
  basePath : String
  archiveId : String
  fileSize : Nat
deriving DecidableEq, Repr

/-- The sentinel archive id denoting an empty file (spec 3). -/
def zeroSizeSentinel : String := "GlacierZeroSizeFile"

/-- Modelled from the spec: keep the whole record list when no filter is
given, otherwise keep the records whose `basePath` matches at least one
glob pattern (spec 4.6). -/
def applyFilters (filters : List String) (records : List FileRecord) : List FileRecord :=
  match filters with
  | [] => records
  | _ => records.filter (fun r => matchesAny filters r.basePath)

/-- Modelled from the spec: the environment of a `downloadArchives` run of
the missing `downloadArchives.go`: the abstract `ArchiveService` (`store`,
`none` meaning `InitiateJob` fails with `ResourceNotFoundException`), the
pre-existing staging files (`ResumeStore`, spec 4.5), the persisted
`JobCache` entries `(archiveId, range, jobId)`, a generator for fresh job
ids, the per-retrieval ceiling and the rate-budget part-size schedule per
archive (see `splitSizedGo`). -/
structure DownloadEnv where
  store : String → Option (List Char)
  stagingContent : String → List Char
  jobCache : List (String × (Nat × Nat) × String)
  freshJobId : String → Nat × Nat → String
  retrievalMaxSize : Nat
  schedule : String → Nat → Nat

/-- Look up a live cached retrieval job for `(archiveId, range)`
(spec 4.2 step 3). -/
def cacheLookup (env : DownloadEnv) (a : String) (p : Nat × Nat) : Option String :=
  (env.jobCache.find? (fun e => decide (e.1 = a ∧ e.2.1 = p))).map (fun e => e.2.2)

/-- The records targeting archive `a`, in mapping-row order. -/
def targetsOf (records : List FileRecord) (a : String) : List FileRecord :=
  records.filter (fun r => decide (r.archiveId = a))

/-- `declaredSize` of an archive: the maximum `fileSize` among its targets
(spec 3, `ArchiveDownloadState`). -/
def declaredSize (records : List FileRecord) (a : String) : Nat :=
  ((targetsOf records a).map (fun r => r.fileSize)).foldr max 0

/-- One mebibyte, `utils.S_1MB` of the source: the alignment unit of
cold-store range retrievals. -/
def oneMiB : Nat := 1048576

/-- Modelled from the spec and tests: the byte offset from which the
planner resumes a staging file of length `L` for an archive of declared
size `N`.  A full staging file (`N ≤ L`) needs no retrieval at all
(test `…_already_started_and_completed` pins zero `InitiateJob` and
`DescribeJob` calls); otherwise the cursor is `L` aligned *down* to a
1 MiB boundary, not `L` itself: test `…_an_archive_already_started`
stages 1048579 bytes yet pins the single range "1048576-1048580", so the
unaligned staged tail is re-downloaded. -/
def resumeCursor (L N : Nat) : Nat :=
  if N ≤ L then L else L / oneMiB * oneMiB

/-- The parts planned for an archive resumed from a staging file of
length `L`: the byte interval `[resumeCursor L N, N)` is split under
schedule `sizeAt` and ceiling `C`. -/
def plannedParts (sizeAt : Nat → Nat) (L N C : Nat) : List (Nat × Nat) :=
  splitSized sizeAt (resumeCursor L N) N C

/-- The parts planned for archive `a`: the staging file's length is the
resume position (spec 4.5), aligned down to 1 MiB (see `resumeCursor`),
so exactly `[resumeCursor L declaredSize, declaredSize)` is split. -/
def partsFor (env : DownloadEnv) (records : List FileRecord) (a : String) :
    List (Nat × Nat) :=
  plannedParts (env.schedule a) (env.stagingContent a).length
    (declaredSize records a) env.retrievalMaxSize

/-- The planned parts with no matching live job in the `JobCache`: exactly
these give rise to `InitiateJob` calls (spec 4.2 step 3). -/
def nonCachedParts (env : DownloadEnv) (records : List FileRecord) (a : String) :
    List (Nat × Nat) :=
  (partsFor env records a).filter (fun p => (cacheLookup env a p).isNone)

/-- Whether the archive is abandoned: its first `InitiateJob` call fails
with `ResourceNotFoundException` (spec 4.2 step 5).  No call is attempted
when every planned part has a cached job or nothing is planned. -/
def archiveFails (env : DownloadEnv) (records : List FileRecord) (a : String) : Bool :=
  (env.store a).isNone && !(nonCachedParts env records a).isEmpty

/-- The `InitiateJob` calls `(archiveId, range)` issued for archive `a`:
one per non-cached part, stopping after the first call when the archive is
not found (spec 4.2 steps 3 and 5). -/
def initiatedFor (env : DownloadEnv) (records : List FileRecord) (a : String) :
    List (String × Nat × Nat) :=
  match env.store a with
  | some _ => (nonCachedParts env records a).map (fun p => (a, p))
  | none => ((nonCachedParts env records a).take 1).map (fun p => (a, p))

/-- The parts emitted to the download loop with their job ids, the cached
job id being reused when present (spec 4.2 step 3); each emitted part is
then polled with `DescribeJob` and streamed with `GetJobOutput`
(spec 4.3).  Nothing is emitted for an abandoned archive. -/
def emittedFor (env : DownloadEnv) (records : List FileRecord) (a : String) :
    List (String × (Nat × Nat) × String) :=
  if archiveFails env records a then []
  else (partsFor env records a).map
    (fun p => (a, p, (cacheLookup env a p).getD (env.freshJobId a p)))

/-- The bytes accumulated in the staging file once all parts of archive `a`
are downloaded: the staged prefix up to the aligned resume cursor followed
by the streamed slices of the archive, in emission order (spec 4.4).  The
unaligned staged tail beyond the cursor is overwritten by the re-downloaded
bytes: test `…_an_archive_already_started` stages 1 MiB of "_" plus "hel"
but pins the final content as 1 MiB of "_" plus the downloaded "hello". -/
def contentOf (env : DownloadEnv) (records : List FileRecord) (a : String) : List Char :=
  (env.stagingContent a).take
      (resumeCursor (env.stagingContent a).length (declaredSize records a))
    ++ ((partsFor env records a).map (sliceOf ((env.store a).getD []))).flatten

/-- The destination files produced for archive `a`: one per target record,
each a copy of the staged archive truncated to that record's `fileSize`
(spec 4.4 step 1); none when the archive was abandoned. -/
def filesFor (env : DownloadEnv) (records : List FileRecord) (a : String) :
    List (FileRecord × List Char) :=
  if archiveFails env records a then []
  else (targetsOf records a).map
    (fun r => (r, (contentOf env records a).take r.fileSize))

/-- First-occurrence deduplication (structural helper). -/
def dedupAux : List String → List String → List String
  | [], _ => []
  | a :: rest, seen =>
    if a ∈ seen then dedupAux rest seen else a :: dedupAux rest (a :: seen)

/-- Keep the first occurrence of every element, in order. -/
def dedupFirst (l : List String) : List String := dedupAux l []

/-- The distinct archive ids to retrieve, in mapping-row order, the
zero-size sentinel excluded (spec 4.2 steps 1 and 4). -/
def archivesOf (records : List FileRecord) : List String :=
  dedupFirst ((records.filter
    (fun r => decide (r.archiveId ≠ zeroSizeSentinel))).map (fun r => r.archiveId))

/-- Observable outcome of a `downloadArchives` run. -/
structure RunResult where
  plannedArchives : List String
  initiated : List (String × Nat × Nat)
  emitted : List (String × (Nat × Nat) × String)
  files : List (FileRecord × List Char)
  exitCode : Nat
deriving DecidableEq, Repr

/-- Modelled from the spec: one `downloadArchives` run of the missing
`downloadArchives.go` over an already-filtered record list.  Archives are
processed once each in first-occurrence order; sentinel records become
empty files without contacting the `ArchiveService` (spec 4.4); an archive
whose `InitiateJob` fails with not-found is skipped without aborting the
run, which exits 0 (spec 4.2 step 5, spec 7 categories 1-3). -/
def runDownload (env : DownloadEnv) (records : List FileRecord) : RunResult :=
  let archives := archivesOf records
  { plannedArchives := archives
    initiated := (archives.map (initiatedFor env records)).flatten
    emitted := (archives.map (emittedFor env records)).flatten
    files :=
      (records.filter (fun r => decide (r.archiveId = zeroSizeSentinel))).map
        (fun r => (r, ([] : List Char)))
      ++ (archives.map (filesFor env records)).flatten
    exitCode := 0 }

/- ------------------------------------------------------------------ -/
/- The outputs package (embedded from src/outputs/outputs.go).        -/
/- ------------------------------------------------------------------ -/

/-- Level constant from outputs.go: `Verbose Level = iota` (0). -/
def levelVerbose : Nat := 0
/-- Level constant from outputs.go: `OptionalInfo` (1). -/
def levelOptionalInfo : Nat := 1
/-- Level constant from outputs.go: `Info` (2). -/
def levelInfo : Nat := 2
/-- Level constant from outputs.go: `Warning` (3). -/
def levelWarning : Nat := 3
/-- Level constant from outputs.go: `Error` (4). -/
def levelError : Nat := 4

/-- The mutable state of the outputs package: the two boolean flags and
the five writers, each writer modelled as the string written to it so
far. -/
structure OutputsState where
  verboseFlag : Bool
  optionalInfoFlag : Bool
  verboseWriter : String
  optionalInfoWriter : String
  infoWriter : String
  warningWriter : String
  errorWriter : String
deriving DecidableEq, Repr

/-- The `print` function of outputs.go.  The Go body is a sequence of
`if level == …` tests selecting a writer (they are mutually exclusive
since the level constants are distinct, so the chain below is faithful);
`Verbose` and `OptionalInfo` return early when their flag is off, and
`Warning`/`Error` prepend their prefix before the single `fmt.Fprint`. -/
def printOutputs (st : OutputsState) (level : Nat) (toPrint : String) : OutputsState :=
  if level = levelVerbose then
    if st.verboseFlag = false then st
    else { st with verboseWriter := st.verboseWriter ++ toPrint }
  else if level = levelOptionalInfo then
    if st.optionalInfoFlag = false then st
    else { st with optionalInfoWriter := st.optionalInfoWriter ++ toPrint }
  else if level = levelInfo then
    { st with infoWriter := st.infoWriter ++ toPrint }
  else if level = levelWarning then
    { st with warningWriter := st.warningWriter ++ ("WARNING: " ++ toPrint) }
  else if level = levelError then
    { st with errorWriter := st.errorWriter ++ ("ERROR: " ++ toPrint) }
  else st

/- ------------------------------------------------------------------ -/
/- Mapping-archive phase (spec 4.7), behaviour pinned by              -/
/- src/vault/mappingDowloader_test.go.                                -/
/- ------------------------------------------------------------------ -/

/-- `RegionVaultCache` as in spec 3: the persisted mapping-phase state.
The mapping archive descriptor is `(archiveId, size)`; an empty string
stands for an absent job id, as in the tests. -/
structure RegionVaultCache where
  inventoryJobId : String
  mappingArchive : Option (String × Nat)
  retrievalJobId : String
deriving DecidableEq, Repr

/-- First answer of `DescribeJob` on a job id: the job id was not found,
the job is still running, or it is already completed. -/
inductive DescribeOutcome where
  | notFound
  | inProgress
  | completed
deriving DecidableEq, Repr

/-- An empty string in the cache means no job id is cached. -/
def strOpt (s : String) : Option String :=
  if s = "" then none else some s

/-- Lines and initiation behaviour of one mapping phase. -/
structure PhaseResult where
  lines : List String
  jobUsed : String
  initiatedFresh : Bool
deriving DecidableEq, Repr

/-- Modelled from the spec: one phase (inventory or archive-retrieval) of
`DownloadMappingArchive` in the missing `mappingDowloader.go` (spec 4.7
step 3), with the exact lines pinned by the tests: with no cached job id,
initiate and print "has started" then "has finished"; with a cached id,
describe it first — completed: print nothing; in progress: print
"is in progress" then "has finished"; not found: print the phase's warning
(typo preserved), re-initiate and print "has started" / "has finished"
for the fresh job. -/
def runPhase (jobName warning freshId : String) (cachedId : Option String)
    (describe : String → DescribeOutcome) : PhaseResult :=
  match cachedId with
  | none =>
    { lines := ["Job to " ++ jobName ++ " has started (can last up to 4 hours): " ++ freshId,
                "Job has finished: " ++ freshId]
      jobUsed := freshId
      initiatedFresh := true }
  | some id =>
    match describe id with
    | .completed => { lines := [], jobUsed := id, initiatedFresh := false }
    | .inProgress =>
      { lines := ["Job to " ++ jobName ++ " is in progress (can last up to 4 hours): " ++ id,
                  "Job has finished: " ++ id]
        jobUsed := id
        initiatedFresh := false }
    | .notFound =>
      { lines := ["WARNING: " ++ warning,
                  "Job to " ++ jobName ++ " has started (can last up to 4 hours): " ++ freshId,
                  "Job has finished: " ++ freshId]
        jobUsed := freshId
        initiatedFresh := true }

/-- The inventory-phase warning, bit-exact from the source test. -/
def inventoryWarning : String := "Inventory job cahed for mapping vaul was not found"

/-- The retrieval-phase warning, bit-exact from the source test. -/
def retrieveWarning : String := "Retrieve mapping archive job cached was not found"

/-- Modelled from the spec: observable outcome of `DownloadMappingArchive`
(spec 4.7) when no local mapping file pre-exists: the inventory phase runs
unless the cache already holds the mapping archive descriptor, then the
retrieval phase runs, then the final success line is printed.  Returns the
user-visible lines and the list of freshly initiated job ids. -/
def downloadMappingRun (cache : RegionVaultCache)
    (describe : String → DescribeOutcome)
    (freshInventoryId freshRetrieveId : String) : List String × List String :=
  match cache.mappingArchive with
  | some _ =>
    let ph := runPhase "retrieve mapping archive" retrieveWarning freshRetrieveId
      (strOpt cache.retrievalJobId) describe
    (ph.lines ++ ["Mapping archive has been downloaded"],
      if ph.initiatedFresh then [freshRetrieveId] else [])
  | none =>
    let ph1 := runPhase "find mapping archive id" inventoryWarning freshInventoryId
      (strOpt cache.inventoryJobId) describe
    let ph2 := runPhase "retrieve mapping archive" retrieveWarning freshRetrieveId
      (strOpt cache.retrievalJobId) describe
    (ph1.lines ++ ph2.lines ++ ["Mapping archive has been downloaded"],
      (if ph1.initiatedFresh then [freshInventoryId] else [])
        ++ (if ph2.initiatedFresh then [freshRetrieveId] else []))

/- ------------------------------------------------------------------ -/
/- Helper lemmas about the run model.                                 -/
/- ------------------------------------------------------------------ -/

theorem mem_dedupAux (l : List String) :
    ∀ (seen : List String) (x : String),
      x ∈ dedupAux l seen ↔ x ∈ l ∧ x ∉ seen := by
  induction l with
  | nil => intro seen x; simp [dedupAux]
  | cons a rest ih =>
    intro seen x
    by_cases h : a ∈ seen
    · rw [dedupAux, if_pos h, ih]
      constructor
      · rintro ⟨hx, hns⟩
        exact ⟨List.mem_cons_of_mem _ hx, hns⟩
      · rintro ⟨hx, hns⟩
        rcases List.mem_cons.mp hx with hxa | hx
        · exact absurd (hxa ▸ h) hns
        · exact ⟨hx, hns⟩
    · rw [dedupAux, if_neg h]
      simp only [List.mem_cons, ih, List.mem_cons]
      constructor
      · rintro (rfl | ⟨hx, hns⟩)
        · exact ⟨Or.inl rfl, h⟩
        · exact ⟨Or.inr hx, fun hs => hns (Or.inr hs)⟩
      · rintro ⟨rfl | hx, hns⟩
        · exact Or.inl rfl
        · by_cases hxa : x = a
          · exact Or.inl hxa
          · exact Or.inr ⟨hx, fun hs => hs.elim hxa hns⟩

theorem dedupAux_nodup (l : List String) :
    ∀ seen : List String, (dedupAux l seen).Nodup := by
  induction l with
  | nil => intro seen; simp [dedupAux]
  | cons a rest ih =>
    intro seen
    by_cases h : a ∈ seen
    · rw [dedupAux, if_pos h]; exact ih seen
    · rw [dedupAux, if_neg h]
      refine List.nodup_cons.mpr ⟨?_, ih (a :: seen)⟩
      intro hmem
      exact ((mem_dedupAux rest (a :: seen) a).mp hmem).2 (List.mem_cons_self a seen)

theorem mem_archivesOf (records : List FileRecord) (a : String) :
    a ∈ archivesOf records ↔
      (∃ r ∈ records, r.archiveId = a) ∧ a ≠ zeroSizeSentinel := by
  rw [archivesOf, dedupFirst, mem_dedupAux]
  constructor
  · rintro ⟨hmem, -⟩
    rw [List.mem_map] at hmem
    obtain ⟨r, hr, rfl⟩ := hmem
    rw [List.mem_filter] at hr
    exact ⟨⟨r, hr.1, rfl⟩, by simpa using hr.2⟩
  · rintro ⟨⟨r, hr, rfl⟩, hs⟩
    refine ⟨?_, List.not_mem_nil _⟩
    rw [List.mem_map]
    exact ⟨r, List.mem_filter.mpr ⟨hr, by simpa using hs⟩, rfl⟩

theorem archivesOf_nodup (records : List FileRecord) :
    (archivesOf records).Nodup :=
  dedupAux_nodup _ []

theorem filesFor_mem (env : DownloadEnv) (records : List FileRecord)
    (a : String) (r : FileRecord) (c : List Char)
    (h : (r, c) ∈ filesFor env records a) :
    archiveFails env records a = false ∧ r ∈ records ∧ r.archiveId = a ∧
      c = (contentOf env records a).take r.fileSize := by
  by_cases hfail : archiveFails env records a
  · rw [filesFor, if_pos hfail] at h
    simp at h
  · rw [filesFor, if_neg hfail] at h
    simp only [List.mem_map, targetsOf, List.mem_filter, decide_eq_true_eq,
      Prod.mk.injEq] at h
    obtain ⟨r', ⟨hr', hid⟩, hre, hce⟩ := h
    subst hre
    exact ⟨Bool.not_eq_true _ ▸ (by simpa using hfail), hr', hid, hce.symm⟩

theorem runDownload_files_cases (env : DownloadEnv) (records : List FileRecord)
    (r : FileRecord) (c : List Char)
    (h : (r, c) ∈ (runDownload env records).files) :
    (r ∈ records ∧ r.archiveId = zeroSizeSentinel ∧ c = []) ∨
    (r ∈ records ∧ r.archiveId ≠ zeroSizeSentinel ∧
      archiveFails env records r.archiveId = false ∧
      c = (contentOf env records r.archiveId).take r.fileSize) := by
  rw [runDownload] at h
  simp only [List.mem_append, List.mem_map, List.mem_filter,
    decide_eq_true_eq, Prod.mk.injEq, List.mem_flatten] at h
  rcases h with ⟨r', ⟨hr', hs⟩, hre, hce⟩ | ⟨fl, ⟨aa, ha, hfl⟩, hmem⟩
  · subst hre
    exact Or.inl ⟨hr', hs, hce.symm⟩
  · subst hfl
    obtain ⟨hfail, hrrec, hid, hc⟩ := filesFor_mem env records aa r c hmem
    subst hid
    have hns := ((mem_archivesOf records r.archiveId).mp ha).2
    exact Or.inr ⟨hrrec, hns, hfail, hc⟩

theorem runDownload_files_intro (env : DownloadEnv) (records : List FileRecord)
    (r : FileRecord) (hr : r ∈ records) (hs : r.archiveId ≠ zeroSizeSentinel)
    (hfail : archiveFails env records r.archiveId = false) :
    (r, (contentOf env records r.archiveId).take r.fileSize)
      ∈ (runDownload env records).files := by
  rw [runDownload]
  refine List.mem_append_right _ ?_
  rw [List.mem_flatten]
  refine ⟨filesFor env records r.archiveId, List.mem_map_of_mem _ ?_, ?_⟩
  · exact (mem_archivesOf records r.archiveId).mpr ⟨⟨r, hr, rfl⟩, hs⟩
  · rw [filesFor, if_neg (by simp [hfail])]
    refine List.mem_map_of_mem _ ?_
    rw [targetsOf, List.mem_filter]
    exact ⟨hr, by simp⟩

theorem runDownload_sentinel_files_intro (env : DownloadEnv)
    (records : List FileRecord) (r : FileRecord) (hr : r ∈ records)
    (hs : r.archiveId = zeroSizeSentinel) :
    (r, ([] : List Char)) ∈ (runDownload env records).files := by
  rw [runDownload]
  refine List.mem_append_left _ ?_
  refine List.mem_map_of_mem _ ?_
  rw [List.mem_filter]
  exact ⟨hr, by simp [hs]⟩

theorem runDownload_initiated_mem (env : DownloadEnv) (records : List FileRecord)
    (x : String × Nat × Nat) (hx : x ∈ (runDownload env records).initiated) :
    x.1 ∈ archivesOf records ∧ x.2 ∈ nonCachedParts env records x.1 := by
  rw [runDownload] at hx
  simp only [List.mem_flatten, List.mem_map] at hx
  obtain ⟨fl, ⟨a, ha, hfl⟩, hmem⟩ := hx
  subst hfl
  rw [initiatedFor] at hmem
  rcases hst : env.store a with _ | bytes
  · rw [hst] at hmem
    simp only [List.mem_map] at hmem
    obtain ⟨p, hp, hxe⟩ := hmem
    subst hxe
    exact ⟨ha, List.take_subset 1 _ hp⟩
  · rw [hst] at hmem
    simp only [List.mem_map] at hmem
    obtain ⟨p, hp, hxe⟩ := hmem
    subst hxe
    exact ⟨ha, hp⟩

/- ------------------------------------------------------------------ -/
/- Claims.                                                            -/
/- ------------------------------------------------------------------ -/

/-- C1 (counterexample): the claim is false as stated.  Its general rule
(`⌈N/C⌉` parts of width `C`, formalized by `ceilRuleRanges`) yields two
parts at `N = 4194304`, `C = 2 MiB`, yet the claim — and the repository
test `TestDownloadArchives_retrieve_and_download_file_with_multipart`,
which is authoritative — demands the three ranges of
`multipartTestRanges`, which the planner model produces under the
budget-bound schedule observable in that test. -/
theorem claim1_counterexample :
    ceilRuleRanges 4194304 2097152 = [(0, 2097151), (2097152, 4194303)]
    ∧ ceilRuleRanges 4194304 2097152 ≠ multipartTestRanges
    ∧ multipartTestRanges.length ≠ (4194304 + 2097152 - 1) / 2097152
    ∧ splitSized multipartTestSchedule 0 4194304 2097152 = multipartTestRanges := by
  decide

/-- C1 (amended): for every archive of declared size `N > 0` and ceiling
`C > 0`, whatever part sizes the rate budget grants, the planner splits
the archive into parts each of size at most `C`, with inclusive-inclusive
ranges that are in-bounds, contiguous, non-overlapping and emitted in
ascending order, covering `[0, N-1]`, and numbering at least `⌈N/C⌉`;
the count is exactly `⌈N/C⌉` with the ranges `[iC, min((i+1)C, N)-1]`
only when every part is granted the full ceiling; with the budget
schedule of the multipart test, `N = 4194304` and `C = 2 MiB` yield
exactly the three ranges `0-2097151`, `2097152-3145727`,
`3145728-4194303`. -/
theorem claim1_amended (sizeAt : Nat → Nat) (N C : Nat) (hN : 0 < N) (hC : 0 < C) :
    (∀ p ∈ splitSized sizeAt 0 N C, p.1 ≤ p.2 ∧ p.2 < N ∧ p.2 + 1 - p.1 ≤ C)
    ∧ List.Chain' (fun p q : Nat × Nat => p.2 + 1 = q.1) (splitSized sizeAt 0 N C)
    ∧ (∀ b, b < N → ∃ p ∈ splitSized sizeAt 0 N C, p.1 ≤ b ∧ b ≤ p.2)
    ∧ (N + C - 1) / C ≤ (splitSized sizeAt 0 N C).length
    ∧ splitFrom 0 N C = ceilRuleRanges N C
    ∧ splitSized multipartTestSchedule 0 4194304 2097152 = multipartTestRanges := by
  refine ⟨?_, ?_, ?_, ?_, ?_, by decide⟩
  · intro p hp
    rw [splitSized] at hp
    have := splitSizedGo_bounds (N - 0) hC sizeAt 0 0 (N - 0) (le_refl _) p hp
    omega
  · rw [splitSized]
    exact splitSizedGo_chain (N - 0) hC sizeAt 0 0 (N - 0) (le_refl _)
  · intro b hb
    rw [splitSized]
    exact splitSizedGo_cover (N - 0) hC sizeAt 0 0 (N - 0) (le_refl _) b
      (Nat.zero_le b) (by omega)
  · rw [splitSized]
    have := splitSizedGo_length (N - 0) hC sizeAt 0 0 (N - 0) (le_refl _)
    simpa using this
  · rw [splitFrom, splitSized, ceilRuleRanges]
    have := splitSizedGo_uniform C hC (N - 0) 0 0 (N - 0) (le_refl _)
    simpa using this

/-- Witness for C1 (amended) at `N = 5`, `C = 2` with the uniform
schedule. -/
theorem claim1_witness :
    (5 + 2 - 1) / 2 ≤ (splitSized (fun _ => 2) 0 5 2).length :=
  (claim1_amended (fun _ => 2) 5 2 (by decide) (by decide)).2.2.2.1

/-- C2 (counterexample): the claim is false as stated.  At the input of
the cited test `TestDownloadArchives_retrieve_and_download_an_archive_already_started`
(src/core/downloadArchives_test.go lines 407-411: staging length
`L = 1048579`, declared size `N = 1048581`, ceiling 2 MiB), the planner
emits exactly the range "1048576-1048580" the test pins for its single
`InitiateJob` — a part starting *below* `L`, so the parts do not cover
only `[L, N-1]`, and more than `N - L` bytes are downloaded (the staged
tail "hel" is re-downloaded rather than kept). -/
theorem claim2_counterexample :
    plannedParts (fun _ => 2097152) 1048579 1048581 2097152
      = [(1048576, 1048580)]
    ∧ ¬(∀ p ∈ plannedParts (fun _ => 2097152) 1048579 1048581 2097152,
          1048579 ≤ p.1)
    ∧ (1048580 : Nat) + 1 - 1048576 ≠ 1048581 - 1048579 := by
  decide

/-- C2 (amended): resuming from a staging file of length `L`
(0 ≤ L ≤ N): the planner resumes from the 1 MiB-aligned cursor
`A = resumeCursor L N` (which never exceeds `L`, and equals `L` when
`L = N`), and the planned parts cover exactly `[A, N-1]`; when `L = N`
nothing is planned, so no `InitiateJob` and no `DescribeJob` call is made
and every target is materialized directly from the staging file; when the
job cache is empty every planned part of the suffix is initiated; and the
final archive content is the first `A` staged bytes followed by the newly
downloaded bytes, i.e. the full archive. -/
theorem claim2_aligned_resume :
    (∀ (sizeAt : Nat → Nat) (L N C : Nat), 0 < C → L ≤ N →
      resumeCursor L N ≤ L ∧
      ∀ b, (∃ p ∈ plannedParts sizeAt L N C, p.1 ≤ b ∧ b ≤ p.2) ↔
        (resumeCursor L N ≤ b ∧ b < N))
    ∧ (∀ env records a, (env.stagingContent a).length = declaredSize records a →
        partsFor env records a = [] ∧ initiatedFor env records a = [] ∧
        emittedFor env records a = [] ∧
        filesFor env records a = (targetsOf records a).map
          (fun r => (r, (env.stagingContent a).take r.fileSize)))
    ∧ (∀ env records a bytes, env.store a = some bytes → env.jobCache = [] →
        initiatedFor env records a = (partsFor env records a).map (fun p => (a, p)))
    ∧ (∀ env records a bytes L, 0 < env.retrievalMaxSize →
        env.store a = some bytes → bytes.length = declaredSize records a →
        L ≤ bytes.length → env.stagingContent a = bytes.take L →
        contentOf env records a = bytes) := by
  refine ⟨?_, ?_, ?_, ?_⟩
  · intro sizeAt L N C hC hLN
    have hAle : resumeCursor L N ≤ L := by
      rw [resumeCursor]
      split
      · exact le_refl L
      · exact Nat.div_mul_le_self L oneMiB
    refine ⟨hAle, ?_⟩
    intro b
    rw [plannedParts, splitSized]
    constructor
    · rintro ⟨p, hp, h1, h2⟩
      have := splitSizedGo_bounds (N - resumeCursor L N) hC sizeAt 0
        (resumeCursor L N) (N - resumeCursor L N) (le_refl _) p hp
      omega
    · rintro ⟨hb1, hb2⟩
      exact splitSizedGo_cover (N - resumeCursor L N) hC sizeAt 0
        (resumeCursor L N) (N - resumeCursor L N) (le_refl _) b hb1 (by omega)
  · intro env records a h
    have hcur : resumeCursor (env.stagingContent a).length (declaredSize records a)
        = (env.stagingContent a).length := by
      rw [h, resumeCursor, if_pos (le_refl _)]
    have hparts : partsFor env records a = [] := by
      rw [partsFor, plannedParts, hcur, h, splitSized, Nat.sub_self]
      exact splitSizedGo_rem_zero 0 _ _ _ _
    have hnc : nonCachedParts env records a = [] := by
      rw [nonCachedParts, hparts]; rfl
    have hfail : archiveFails env records a = false := by
      rw [archiveFails, hnc]
      simp
    have hcont : contentOf env records a = env.stagingContent a := by
      rw [contentOf, hparts]
      simp only [List.map_nil, List.flatten_nil, List.append_nil]
      rw [hcur, List.take_length]
    refine ⟨hparts, ?_, ?_, ?_⟩
    · cases hst : env.store a <;> simp [initiatedFor, hst, hnc]
    · simp [emittedFor, hfail, hparts]
    · rw [filesFor, if_neg (by simp [hfail]), hcont]
  · intro env records a bytes hst hcache
    rw [initiatedFor, hst]
    have hnc : nonCachedParts env records a = partsFor env records a := by
      rw [nonCachedParts]
      refine List.filter_eq_self.mpr ?_
      intro p hp
      simp [cacheLookup, hcache]
    rw [hnc]
  · intro env records a bytes L hC hst hlen hLle hstag
    have hsl : (env.stagingContent a).length = L := by
      rw [hstag, List.length_take]
      omega
    have hAle : resumeCursor L bytes.length ≤ L := by
      rw [resumeCursor]
      split
      · exact le_refl L
      · exact Nat.div_mul_le_self L oneMiB
    rw [contentOf, hst]
    simp only [Option.getD_some]
    rw [partsFor, plannedParts, hsl, ← hlen, hstag, splitSized,
      splitSizedGo_flatten_slices (bytes.length - resumeCursor L bytes.length) hC _ 0
        (resumeCursor L bytes.length) (bytes.length - resumeCursor L bytes.length)
        bytes (le_refl _)]
    have hdrop : (bytes.drop (resumeCursor L bytes.length)).take
        (bytes.length - resumeCursor L bytes.length)
        = bytes.drop (resumeCursor L bytes.length) :=
      List.take_of_length_le (by rw [List.length_drop])
    have hmin : min (resumeCursor L bytes.length) L = resumeCursor L bytes.length := by
      omega
    rw [hdrop, List.take_take, hmin, List.take_append_drop]

/- Concrete instances mirroring the repository's test scenarios. -/

/-- Archive id `archiveId1` of the core tests. -/
def archOne : String := "archiveId1"

/-- Job id `jobId1` of the core tests. -/
def jobOne : String := "jobId1"

/-- The record of the resume test
(`TestDownloadArchives_retrieve_and_download_an_archive_already_started`,
scaled down to 5 bytes with a 3-byte staged prefix). -/
def resumeRecord : FileRecord := ⟨"share", "data/folder/file1.txt", archOne, 5⟩

/-- Environment of the scaled-down resume scenario: the archive holds
"hello", the staging file already holds "hel". -/
def resumeEnv : DownloadEnv :=
  { store := fun a => if a = archOne then some ("hello".data) else none
    stagingContent := fun a => if a = archOne then "hel".data else []
    jobCache := []
    freshJobId := fun _ _ => jobOne
    retrievalMaxSize := 2097152
    schedule := fun _ _ => 2097152 }

/-- Archive `A` of the dedup scenario
(`TestDownloadArchives_retrieve_and_download_3_files_with_2_identical`,
scaled down: A holds 8 bytes split 4/2/2, B holds 4 bytes split 2/2). -/
def archA : String := "archiveA"

/-- Archive `B` of the dedup scenario. -/
def archB : String := "archiveB"

/-- Content of archive `A` in the dedup scenario. -/
def archAContent : List Char := "abcdefgh".data

/-- Content of archive `B` in the dedup scenario. -/
def archBContent : List Char := "wxyz".data

/-- First record targeting archive `A`. -/
def dupRecordA1 : FileRecord := ⟨"share", "data/file1.txt", archA, 8⟩

/-- The record targeting archive `B`. -/
def dupRecordB : FileRecord := ⟨"share", "data/file2.txt", archB, 4⟩

/-- Second record targeting archive `A` (same archive as the first). -/
def dupRecordA2 : FileRecord := ⟨"share", "data/file3.txt", archA, 8⟩

/-- The three records of the dedup scenario, in mapping-row order. -/
def dedupRecords : List FileRecord := [dupRecordA1, dupRecordB, dupRecordA2]

/-- Environment of the dedup scenario; the budget grants archive `A`
4 then 2 then 2 bytes and archive `B` 2 bytes per part. -/
def dedupEnv : DownloadEnv :=
  { store := fun a => if a = archA then some archAContent
             else if a = archB then some archBContent else none
    stagingContent := fun _ => []
    jobCache := []
    freshJobId := fun a _ => "job-" ++ a
    retrievalMaxSize := 4
    schedule := fun a i => if a = archA then (if i = 0 then 4 else 2) else 2 }

/-- Records of the not-found scenario
(`TestDownloadArchives_retrieve_when_archive_is_not_found`): three
one-byte archives, the middle one missing from the store. -/
def nfRecord1 : FileRecord := ⟨"share", "data/folder/file1.txt", "archiveId1", 1⟩

/-- Second record of the not-found scenario (its archive is missing). -/
def nfRecord2 : FileRecord := ⟨"share", "data/folder/file2.txt", "archiveId2", 1⟩

/-- Third record of the not-found scenario. -/
def nfRecord3 : FileRecord := ⟨"share", "data/folder/file3.txt", "archiveId3", 1⟩

/-- The record list of the not-found scenario. -/
def nfRecords : List FileRecord := [nfRecord1, nfRecord2, nfRecord3]

/-- Environment of the not-found scenario: `InitiateJob` on `archiveId2`
fails with `ResourceNotFoundException`. -/
def notFoundEnv : DownloadEnv :=
  { store := fun a => if a = nfRecord1.archiveId then some ("1".data)
             else if a = nfRecord3.archiveId then some ("3".data) else none
    stagingContent := fun _ => []
    jobCache := []
    freshJobId := fun a _ => "job-" ++ a
    retrievalMaxSize := 2097152
    schedule := fun _ _ => 2097152 }

/-- First sentinel record of `TestDownloadArchives_retrieve_empty_file`. -/
def sentinelRec1 : FileRecord := ⟨"share", "data/folder/file1.txt", zeroSizeSentinel, 0⟩

/-- Second sentinel record of that test. -/
def sentinelRec2 : FileRecord := ⟨"share", "data/folder/file2.txt", zeroSizeSentinel, 0⟩

/-- C3: all destination files of records sharing a (non-sentinel)
archive id are truncations of the same archive content, so two such
records with equal `fileSize` receive byte-identical files; archives are
planned once each (`plannedArchives` has no duplicates); concretely, in
the dedup scenario with records `[A, B, A]` only five parts are initiated
(three for `A`, two for `B`) and the two `A`-files are byte-identical. -/
theorem claim3_shared_archives :
    (∀ env records r1 c1 r2 c2,
      (r1, c1) ∈ (runDownload env records).files →
      (r2, c2) ∈ (runDownload env records).files →
      r2.archiveId = r1.archiveId → r1.archiveId ≠ zeroSizeSentinel →
      c1 = (contentOf env records r1.archiveId).take r1.fileSize ∧
      c2 = (contentOf env records r1.archiveId).take r2.fileSize ∧
      (r1.fileSize = r2.fileSize → c1 = c2))
    ∧ (∀ env records, (runDownload env records).plannedArchives.Nodup)
    ∧ (runDownload dedupEnv dedupRecords).plannedArchives = [archA, archB]
    ∧ (runDownload dedupEnv dedupRecords).initiated =
        [(archA, 0, 3), (archA, 4, 5), (archA, 6, 7), (archB, 0, 1), (archB, 2, 3)]
    ∧ (runDownload dedupEnv dedupRecords).files =
        [(dupRecordA1, archAContent), (dupRecordA2, archAContent),
         (dupRecordB, archBContent)] := by
  refine ⟨?_, ?_, by decide, by decide, by decide⟩
  · intro env records r1 c1 r2 c2 h1 h2 hid hs
    rcases runDownload_files_cases env records r1 c1 h1 with ⟨_, hsent, _⟩ | ⟨_, _, _, hc1⟩
    · exact absurd hsent hs
    rcases runDownload_files_cases env records r2 c2 h2 with ⟨_, hsent2, _⟩ | ⟨_, _, _, hc2⟩
    · exact absurd (hid ▸ hsent2) hs
    rw [hid] at hc2
    exact ⟨hc1, hc2, fun hsz => by rw [hc1, hc2, hsz]⟩
  · intro env records
    show (archivesOf records).Nodup
    exact archivesOf_nodup records

/-- Witness for C3: in the dedup scenario the first `A`-record's file is
the archive content truncated to its own size. -/
theorem claim3_witness :
    archAContent = (contentOf dedupEnv dedupRecords dupRecordA1.archiveId).take
      dupRecordA1.fileSize :=
  (claim3_shared_archives.1 dedupEnv dedupRecords dupRecordA1 archAContent
    dupRecordA2 archAContent (by decide) (by decide) (by decide) (by decide)).1

/-- C4: an archive whose `InitiateJob` fails with
`ResourceNotFoundException` (absent from the store, with at least one
non-cached part to initiate) is terminal for that archive only: none of
its records yields a file, every record of a surviving archive is still
materialized in full, and the run exits 0; concretely, in the three-file
scenario with the middle archive missing, exactly the first and third
files exist and the exit code is 0. -/
theorem claim4_not_found :
    (∀ env records r c, r.archiveId ≠ zeroSizeSentinel →
      env.store r.archiveId = none →
      nonCachedParts env records r.archiveId ≠ [] →
      (r, c) ∉ (runDownload env records).files)
    ∧ (∀ env records r, r ∈ records → r.archiveId ≠ zeroSizeSentinel →
      archiveFails env records r.archiveId = false →
      (r, (contentOf env records r.archiveId).take r.fileSize)
        ∈ (runDownload env records).files)
    ∧ (∀ env records, (runDownload env records).exitCode = 0)
    ∧ (runDownload notFoundEnv nfRecords).files
        = [(nfRecord1, "1".data), (nfRecord3, "3".data)]
    ∧ (∀ c, (nfRecord2, c) ∉ (runDownload notFoundEnv nfRecords).files)
    ∧ (runDownload notFoundEnv nfRecords).exitCode = 0 := by
  have hfiles : (runDownload notFoundEnv nfRecords).files
      = [(nfRecord1, "1".data), (nfRecord3, "3".data)] := by decide
  refine ⟨?_, ?_, ?_, hfiles, ?_, by decide⟩
  · intro env records r c hs hst hnc h
    rcases runDownload_files_cases env records r c h with ⟨_, hsent, _⟩ | ⟨_, _, hfail, _⟩
    · exact absurd hsent hs
    · rw [archiveFails, hst] at hfail
      simp only [Option.isNone_none, Bool.true_and] at hfail
      refine hnc (List.isEmpty_iff.mp ?_)
      cases hie : (nonCachedParts env records r.archiveId).isEmpty
      · rw [hie] at hfail
        exact absurd hfail (by decide)
      · rfl
  · intro env records r hr hs hfail
    exact runDownload_files_intro env records r hr hs hfail
  · intro env records
    rfl
  · intro c hc
    rw [hfiles] at hc
    simp only [List.mem_cons, List.not_mem_nil, or_false, Prod.mk.injEq] at hc
    rcases hc with ⟨h, -⟩ | ⟨h, -⟩ <;> exact absurd h (by decide)

/-- Witness for C4: the missing middle archive's record produces no file
in the not-found scenario. -/
theorem claim4_witness :
    (nfRecord2, ([] : List Char)) ∉ (runDownload notFoundEnv nfRecords).files :=
  claim4_not_found.1 notFoundEnv nfRecords nfRecord2 [] (by decide) (by decide)
    (by decide)

/-- C5: no `InitiateJob` call ever carries the zero-size sentinel archive
id, and every record bearing the sentinel id with `fileSize = 0` gets an
empty destination file; concretely, the empty-file scenario issues no
`InitiateJob` and produces two empty files. -/
theorem claim5_sentinel :
    (∀ env records x, x ∈ (runDownload env records).initiated →
      x.1 ≠ zeroSizeSentinel)
    ∧ (∀ env records r, r ∈ records → r.archiveId = zeroSizeSentinel →
      r.fileSize = 0 → (r, ([] : List Char)) ∈ (runDownload env records).files)
    ∧ (runDownload resumeEnv [sentinelRec1, sentinelRec2]).initiated = []
    ∧ (runDownload resumeEnv [sentinelRec1, sentinelRec2]).files
        = [(sentinelRec1, []), (sentinelRec2, [])] := by
  refine ⟨?_, ?_, by decide, by decide⟩
  · intro env records x hx
    exact ((mem_archivesOf records x.1).mp
      (runDownload_initiated_mem env records x hx).1).2
  · intro env records r hr hs hz
    exact runDownload_sentinel_files_intro env records r hr hs

/-- Witness for C5: the first sentinel record of the empty-file scenario
gets an empty file. -/
theorem claim5_witness :
    (sentinelRec1, ([] : List Char))
      ∈ (runDownload resumeEnv [sentinelRec1, sentinelRec2]).files :=
  claim5_sentinel.2.1 resumeEnv [sentinelRec1, sentinelRec2] sentinelRec1
    (by decide) (by decide) (by decide)

/-- The four glob filters of
`TestDownloadArchives_retrieve_and_download_only_filtered_files`. -/
def filterPatterns : List String :=
  ["data/folder/*", "*.info", "data/file??.bin", "data/iwantthis"]

/-- The twelve candidate records of the filter scenario, in mapping-row
order (each a 2-byte archive with a distinct archive id). -/
def filterRecords : List FileRecord :=
  [⟨"share", "data/folder/file1.txt", "archiveId1", 2⟩,
   ⟨"share", "data/folder/file2.bin", "archiveId2", 2⟩,
   ⟨"share", "data/folderno/no.bin", "archiveId3", 2⟩,
   ⟨"share", "data/no", "archiveId4", 2⟩,
   ⟨"share", "data/otherfolder/no", "archiveId5", 2⟩,
   ⟨"share", "data/otherfolder/file3.info", "archiveId6", 2⟩,
   ⟨"share", "data/otherfolder/no.txt", "archiveId7", 2⟩,
   ⟨"share", "data/file4.info", "archiveId8", 2⟩,
   ⟨"share", "data/file41.bin", "archiveId9", 2⟩,
   ⟨"share", "data/file42.bin", "archiveId10", 2⟩,
   ⟨"share", "data/filenop.bin", "archiveId11", 2⟩,
   ⟨"share", "data/iwantthis", "archiveId12", 2⟩]

/-- Environment of the filter scenario: every archive holds "ok". -/
def filterEnv : DownloadEnv :=
  { store := fun _ => some ("ok".data)
    stagingContent := fun _ => []
    jobCache := []
    freshJobId := fun a _ => "job-" ++ a
    retrievalMaxSize := 2097152
    schedule := fun _ _ => 2097152 }

/-- The seven base paths retained by the filters, in mapping-row order. -/
def retainedPaths : List String :=
  ["data/folder/file1.txt", "data/folder/file2.bin",
   "data/otherfolder/file3.info", "data/file4.info", "data/file41.bin",
   "data/file42.bin", "data/iwantthis"]

/-- The five base paths the filters reject. -/
def rejectedPaths : List String :=
  ["data/folderno/no.bin", "data/no", "data/otherfolder/no",
   "data/otherfolder/no.txt", "data/filenop.bin"]

/-- C6: with a non-empty filter list, a record is retained iff its
`basePath` matches at least one glob pattern (stars crossing path
separators); with the four patterns of the filter test over the twelve
candidate records, exactly the seven listed paths survive filtering and
are materialized by the run, and the other five are absent. -/
theorem claim6_filters :
    (∀ filters records r, filters ≠ [] →
      (r ∈ applyFilters filters records ↔
        r ∈ records ∧ matchesAny filters r.basePath = true))
    ∧ ((applyFilters filterPatterns filterRecords).map
        (fun r => r.basePath) = retainedPaths)
    ∧ ((runDownload filterEnv (applyFilters filterPatterns filterRecords)).files.map
        (fun rc => rc.1.basePath) = retainedPaths)
    ∧ (∀ p ∈ rejectedPaths,
        p ∉ ((runDownload filterEnv (applyFilters filterPatterns filterRecords)).files.map
          (fun rc => rc.1.basePath))) := by
  refine ⟨?_, by decide, by decide, by decide⟩
  intro filters records r hne
  cases filters with
  | nil => exact absurd rfl hne
  | cons f fs => simp [applyFilters, List.mem_filter]

/-- Witness for C6: the retention criterion applied to the first record
of the filter scenario. -/
theorem claim6_witness :
    (⟨"share", "data/folder/file1.txt", "archiveId1", 2⟩ : FileRecord)
      ∈ applyFilters filterPatterns filterRecords ↔
    (⟨"share", "data/folder/file1.txt", "archiveId1", 2⟩ : FileRecord)
      ∈ filterRecords ∧
    matchesAny filterPatterns "data/folder/file1.txt" = true :=
  claim6_filters.1 filterPatterns filterRecords _ (by decide)

/-- The single record of the cached-retrieval-job scenario
(`TestDownloadArchives_retrieve_and_download_when_retrieval_job_exists`). -/
def cachedRecord : FileRecord := ⟨"share", "data/file1.txt", archOne, 5⟩

/-- Environment of that scenario: the `JobCache` already holds a live job
`jobId1` for `(archiveId1, 0-4)`. -/
def cachedEnv : DownloadEnv :=
  { store := fun a => if a = archOne then some ("hello".data) else none
    stagingContent := fun _ => []
    jobCache := [(archOne, (0, 4), jobOne)]
    freshJobId := fun _ _ => "freshJobId"
    retrievalMaxSize := 1048576
    schedule := fun _ _ => 1048576 }

/-- C7: a part whose `(archiveId, range)` has a live cached job is never
initiated again, and is emitted with the cached job id; concretely, the
cached-job scenario issues no `InitiateJob` at all, reuses `jobId1`, and
still materializes the file with the correct content. -/
theorem claim7_cached_jobs :
    (∀ env records a p j, cacheLookup env a p = some j →
      (a, p) ∉ (runDownload env records).initiated)
    ∧ (∀ env records a p j, cacheLookup env a p = some j →
      a ∈ (runDownload env records).plannedArchives →
      p ∈ partsFor env records a →
      archiveFails env records a = false →
      (a, p, j) ∈ (runDownload env records).emitted)
    ∧ (runDownload cachedEnv [cachedRecord]).initiated = []
    ∧ (runDownload cachedEnv [cachedRecord]).emitted = [(archOne, (0, 4), jobOne)]
    ∧ (runDownload cachedEnv [cachedRecord]).files = [(cachedRecord, "hello".data)] := by
  refine ⟨?_, ?_, by decide, by decide, by decide⟩
  · intro env records a p j hl hmem
    have h := (runDownload_initiated_mem env records (a, p) hmem).2
    have := (List.mem_filter.mp h).2
    rw [hl, Option.isNone_some] at this
    exact absurd this (by decide)
  · intro env records a p j hl ha hp hfail
    show (a, p, j) ∈ ((archivesOf records).map (emittedFor env records)).flatten
    rw [List.mem_flatten]
    refine ⟨emittedFor env records a, List.mem_map_of_mem _ ha, ?_⟩
    rw [emittedFor, if_neg (by simp [hfail])]
    refine List.mem_map.mpr ⟨p, hp, ?_⟩
    rw [hl]
    rfl

/-- Witness for C7: in the cached-job scenario the cached pair
`(archiveId1, 0-4)` is not initiated. -/
theorem claim7_witness :
    (archOne, ((0 : Nat), (4 : Nat))) ∉ (runDownload cachedEnv [cachedRecord]).initiated :=
  claim7_cached_jobs.1 cachedEnv [cachedRecord] archOne (0, 4) jobOne (by decide)

/-- Witness for C2: in the scaled-down resume scenario (staged prefix
"hel" of a 5-byte archive "hello"), the finished archive content is the
full archive. -/
theorem claim2_witness :
    contentOf resumeEnv [resumeRecord] archOne = "hello".data :=
  claim2_aligned_resume.2.2.2 resumeEnv [resumeRecord] archOne ("hello".data) 3
    (by decide) (by decide) (by decide) (by decide) (by decide)

/-- The cache state of
`TestDownloadMappingArchive_download_mapping_with_retrieve_done`: the
mapping archive is known and a retrieval job id is cached. -/
def retrieveDoneCache : RegionVaultCache :=
  ⟨"", some ("mappingArchiveId", 42), "retrieveMappingJobId"⟩

/-- A `DescribeJob` behaviour reporting every job completed. -/
def allCompleted : String → DescribeOutcome := fun _ => .completed

/-- Fresh inventory job id returned by the mocked `InitiateJob`. -/
def freshInventoryJobId : String := "inventoryMappingJobId"

/-- Fresh retrieval job id returned by the mocked `InitiateJob`. -/
def freshRetrieveJobId : String := "retrieveMappingJobId"

/-- C8 (counterexample): with a cached `retrievalJobId` whose
`DescribeJob` immediately reports completed, the claim says the output
still contains the "Job has finished" line followed by the final line;
the repository test
`TestDownloadMappingArchive_download_mapping_with_retrieve_done`
(src/vault/mappingDowloader_test.go lines 246-263) asserts the buffer is
exactly "Mapping archive has been downloaded\n", and the model agrees: no
"has finished" line is emitted. -/
theorem claim8_counterexample :
    "Job has finished: retrieveMappingJobId"
      ∉ (downloadMappingRun retrieveDoneCache allCompleted
          freshInventoryJobId freshRetrieveJobId).1
    ∧ (downloadMappingRun retrieveDoneCache allCompleted
        freshInventoryJobId freshRetrieveJobId).1
      ≠ ["Job has finished: retrieveMappingJobId",
         "Mapping archive has been downloaded"] := by
  decide

/-- C8 (amended): with a cached `retrievalJobId` whose `DescribeJob`
immediately reports completed, both the "has started" and the
"has finished" lines are suppressed: the user-visible output is exactly
the single line "Mapping archive has been downloaded", and no job is
re-initiated. -/
theorem claim8_amended :
    (downloadMappingRun retrieveDoneCache allCompleted
        freshInventoryJobId freshRetrieveJobId).1
      = ["Mapping archive has been downloaded"]
    ∧ (downloadMappingRun retrieveDoneCache allCompleted
        freshInventoryJobId freshRetrieveJobId).2 = [] := by
  decide

/-- C9: when `DescribeJob` on a cached mapping-phase job id reports
not-found, the run emits the bit-exact warning line (typos preserved),
re-initiates the job (the fresh id appears among the initiated jobs and
in the subsequent "has started"/"has finished" lines) and still completes
with the final success line — for the retrieval phase and for the
inventory phase respectively. -/
theorem claim9_stale_cached_jobs :
    (∀ (cache : RegionVaultCache) (describe : String → DescribeOutcome)
        (fi fr : String) (arch : String × Nat),
      cache.mappingArchive = some arch → cache.retrievalJobId ≠ "" →
      describe cache.retrievalJobId = .notFound →
      (downloadMappingRun cache describe fi fr).1 =
        ["WARNING: " ++ retrieveWarning,
         "Job to retrieve mapping archive has started (can last up to 4 hours): " ++ fr,
         "Job has finished: " ++ fr,
         "Mapping archive has been downloaded"]
      ∧ fr ∈ (downloadMappingRun cache describe fi fr).2)
    ∧ (∀ (cache : RegionVaultCache) (describe : String → DescribeOutcome)
        (fi fr : String),
      cache.mappingArchive = none → cache.inventoryJobId ≠ "" →
      describe cache.inventoryJobId = .notFound → cache.retrievalJobId = "" →
      (downloadMappingRun cache describe fi fr).1 =
        ["WARNING: " ++ inventoryWarning,
         "Job to find mapping archive id has started (can last up to 4 hours): " ++ fi,
         "Job has finished: " ++ fi,
         "Job to retrieve mapping archive has started (can last up to 4 hours): " ++ fr,
         "Job has finished: " ++ fr,
         "Mapping archive has been downloaded"]
      ∧ fi ∈ (downloadMappingRun cache describe fi fr).2) := by
  constructor
  · intro cache describe fi fr arch harch hne hdesc
    simp [downloadMappingRun, harch, strOpt, hne, runPhase, hdesc]
  · intro cache describe fi fr harch hne hdesc hret
    simp [downloadMappingRun, harch, strOpt, hne, runPhase, hdesc, hret]

/-- The poisoned cache of
`TestDownloadMappingArchive_download_mapping_with_retrieve_job_deprecated`. -/
def deprecatedRetrieveCache : RegionVaultCache :=
  ⟨"", some ("mappingArchiveId", 42), "unknownRetrieveMappingJobId"⟩

/-- `DescribeJob` behaviour of that test: the stale id is unknown, every
other job is completed. -/
def deprecatedDescribe : String → DescribeOutcome :=
  fun s => if s = "unknownRetrieveMappingJobId" then .notFound else .completed

/-- Witness for C9: in the stale-retrieval-job scenario the fresh job id
is re-initiated. -/
theorem claim9_witness :
    freshRetrieveJobId ∈ (downloadMappingRun deprecatedRetrieveCache
      deprecatedDescribe freshInventoryJobId freshRetrieveJobId).2 :=
  (claim9_stale_cached_jobs.1 deprecatedRetrieveCache deprecatedDescribe
    freshInventoryJobId freshRetrieveJobId ("mappingArchiveId", 42)
    (by decide) (by decide) (by decide)).2

/-- C10: every message printed through the outputs package goes to the
writer selected by its level: Warning to the warning writer prefixed
"WARNING: ", Error to the error writer prefixed "ERROR: ", Info always
unprefixed to the info writer, Verbose to the verbose writer only when
`VerboseFlag` is set (otherwise nothing is written), and OptionalInfo to
its writer only when `OptionalInfoFlag` is set (otherwise nothing is
written). -/
theorem claim10_print_levels (st : OutputsState) (s : String) :
    printOutputs st levelWarning s
      = { st with warningWriter := st.warningWriter ++ ("WARNING: " ++ s) }
    ∧ printOutputs st levelError s
      = { st with errorWriter := st.errorWriter ++ ("ERROR: " ++ s) }
    ∧ printOutputs st levelInfo s = { st with infoWriter := st.infoWriter ++ s }
    ∧ (st.verboseFlag = true →
        printOutputs st levelVerbose s
          = { st with verboseWriter := st.verboseWriter ++ s })
    ∧ (st.verboseFlag = false → printOutputs st levelVerbose s = st)
    ∧ (st.optionalInfoFlag = true →
        printOutputs st levelOptionalInfo s
          = { st with optionalInfoWriter := st.optionalInfoWriter ++ s })
    ∧ (st.optionalInfoFlag = false → printOutputs st levelOptionalInfo s = st) := by
  refine ⟨?_, ?_, ?_, ?_, ?_, ?_, ?_⟩ <;>
    first
    | (intro h;
       simp [printOutputs, levelVerbose, levelOptionalInfo, levelInfo,
         levelWarning, levelError, h])
    | simp [printOutputs, levelVerbose, levelOptionalInfo, levelInfo,
        levelWarning, levelError]

/-- Concrete outputs state with both flags set. -/
def flaggedState : OutputsState := ⟨true, true, "", "", "", "", ""⟩

/-- Witness for C10: a verbose message is appended to the verbose writer
when the flag is set. -/
theorem claim10_witness :
    printOutputs flaggedState levelVerbose ("hi")
      = { flaggedState with verboseWriter := flaggedState.verboseWriter ++ ("hi") } :=
  (claim10_print_levels flaggedState ("hi")).2.2.2.1 rfl
